import Mathlib

/-
Verification of the document-generation core of tornado-swagger
(src/tornado_swagger/_builders.py), shallowly embedded in Lean.

Python dicts are modelled as ordered association lists (insertion order is
preserved, assignment replaces in place, new keys are appended), Python
strings as Lean strings over their character lists, and the external YAML
loader as an oracle function supplied to the functions that call it.
-/

set_option autoImplicit false

/-- PyVal models the JSON-like Python values that flow through the builders:
strings, booleans, None, lists, string-keyed dicts and the int-keyed
response dicts.  Dicts are ordered association lists, as in Python. -/
inductive PyVal where
  | str (s : String)
  | bool (b : Bool)
  | pyNone
  | list (elems : List PyVal)
  | dict (entries : List (String × PyVal))
  | intDict (entries : List (Int × PyVal))

/-- First-match association-list lookup: Python `d[k]` / `d.get(k)`. -/
def alookup {κ α : Type} [DecidableEq κ] : List (κ × α) → κ → Option α
  | [], _ => none
  | (k0, v) :: rest, k => if k0 = k then some v else alookup rest k

/-- Python `k in d` on a dict. -/
def amem {κ α : Type} [DecidableEq κ] (l : List (κ × α)) (k : κ) : Bool :=
  (alookup l k).isSome

/-- Python dict assignment `d[k] = v`: replace in place when the key exists,
append otherwise. -/
def aset {κ α : Type} [DecidableEq κ] : List (κ × α) → κ → α → List (κ × α)
  | [], k, v => [(k, v)]
  | (k0, v0) :: rest, k, v =>
    if k0 = k then (k0, v) :: rest else (k0, v0) :: aset rest k v

/-- Python truthiness for the values the builders test with `if x:`. -/
def pyTruthy : PyVal → Bool
  | .str s => !s.isEmpty
  | .bool b => b
  | .pyNone => false
  | .list xs => !xs.isEmpty
  | .dict kvs => !kvs.isEmpty
  | .intDict kvs => !kvs.isEmpty

/-- Lookup of a string key inside a PyVal that is a dict. -/
def dictLookup (v : PyVal) (k : String) : Option PyVal :=
  match v with
  | .dict kvs => alookup kvs k
  | _ => none

/-- Two-level dict lookup (e.g. document → info → description). -/
def dictLookup2 (kvs : List (String × PyVal)) (k1 k2 : String) : Option PyVal :=
  match alookup kvs k1 with
  | some v => dictLookup v k2
  | none => none

/-- Does the character list start with the given character list? -/
def listStartsWith : List Char → List Char → Bool
  | [], _ => true
  | _ :: _, [] => false
  | a :: as0, b :: bs => a = b && listStartsWith as0 bs

/-- Contiguous-substring test on character lists: Python `needle in hay`. -/
def listContainsSub (needle : List Char) : List Char → Bool
  | [] => needle.isEmpty
  | c :: rest => listStartsWith needle (c :: rest) || listContainsSub needle rest

/-- Python `sub in s` on strings. -/
def strContainsSub (hay sub : String) : Bool :=
  listContainsSub sub.data hay.data

/-- The line-boundary characters recognised by Python `str.splitlines`. -/
def pyIsLineBreak (c : Char) : Bool :=
  c = '\n' || c = '\r' || c = '\x0b' || c = '\x0c' || c = '\x85' ||
    c = '\u2028' || c = '\u2029'

/-- Worker for `pySplitlines`; `cur` is the current line accumulated in
reverse.  A trailing boundary produces no extra empty line, and a
carriage-return/newline pair counts as a single boundary, as in Python. -/
def pySplitlinesGo (cur : List Char) : List Char → List (List Char)
  | [] => if cur.isEmpty then [] else [cur.reverse]
  | '\r' :: '\n' :: rest => cur.reverse :: pySplitlinesGo [] rest
  | c :: rest =>
    if pyIsLineBreak c then cur.reverse :: pySplitlinesGo [] rest
    else pySplitlinesGo (c :: cur) rest

/-- Python `str.splitlines` on a character list. -/
def pySplitlines (cs : List Char) : List (List Char) :=
  pySplitlinesGo [] cs

/-- Python `sep.join(lines)` on character lists. -/
def joinWithSep (sep : List Char) : List (List Char) → List Char
  | [] => []
  | [l] => l
  | l :: l2 :: rest => l ++ sep ++ joinWithSep sep (l2 :: rest)

/-- Python `s.replace("\t", "    ")`: the needle is a single character, so
the replacement is a per-character substitution. -/
def replaceTabs : List Char → List Char
  | [] => []
  | '\t' :: rest => ' ' :: ' ' :: ' ' :: ' ' :: replaceTabs rest
  | c :: rest => c :: replaceTabs rest

/-- Python `hay.replace(needle, repl, 1)`: replace the first occurrence. -/
def replaceFirst : List Char → List Char → List Char → List Char
  | [], needle, repl => if needle.isEmpty then repl else []
  | c :: rest, needle, repl =>
    if listStartsWith needle (c :: rest) then repl ++ (c :: rest).drop needle.length
    else c :: replaceFirst rest needle repl

/-- Scan for the closing parenthesis of a lazy `(.*?)` match: the nearest
subsequent `)` with no newline before it (Python `.` does not cross
newlines).  Returns the consumed segment (closing `)` included) and the
remaining input. -/
def scanClose : List Char → Option (List Char × List Char)
  | [] => none
  | ')' :: rest => some ([')'], rest)
  | '\n' :: _ => none
  | c :: rest =>
    match scanClose rest with
    | none => none
    | some (seg, r) => some (c :: seg, r)

/-- Fuelled scan implementing `re.findall(r"\(.*?\)", s)`: left-to-right,
non-overlapping lazy matches.  Each step consumes at least one character,
so fuel equal to the input length is always sufficient. -/
def findBracketsFuel : Nat → List Char → List (List Char)
  | 0, _ => []
  | _ + 1, [] => []
  | fuel + 1, '(' :: rest =>
    match scanClose rest with
    | some (seg, r) => ('(' :: seg) :: findBracketsFuel fuel r
    | none => findBracketsFuel fuel rest
  | fuel + 1, _ :: rest => findBracketsFuel fuel rest

/-- `re.findall(r"\(.*?\)", s)` from `_format_handler_path`. -/
def findBrackets (cs : List Char) : List (List Char) :=
  findBracketsFuel cs.length cs

/-- ASCII lowering of one character (handler method names are ASCII). -/
def pyLowerChar (c : Char) : Char :=
  if 'A' ≤ c ∧ c ≤ 'Z' then Char.ofNat (c.toNat + 32) else c

/-- Python `str.lower` restricted to ASCII, which covers HTTP method names. -/
def pyLower (s : String) : String :=
  String.mk (s.data.map pyLowerChar)

/-- The index scan of `_clean_description`: index of the first character
different from a newline; 0 when every character is a newline (the Python
loop then never executes its break). -/
def findStartDescGo (i : Nat) : List Char → Nat
  | [] => 0
  | c :: rest => if c = '\n' then findStartDescGo (i + 1) rest else i

/-- Four spaces, the joiner `_clean_description` uses. -/
def spaces4 : List Char := [' ', ' ', ' ', ' ']

/-- `_clean_description`: drop everything before the first non-newline
character, then join the split lines with four spaces. -/
def cleanDescription (description : String) : String :=
  let startDesc := findStartDescGo 0 description.data
  String.mk (joinWithSep spaces4 (pySplitlines (description.data.drop startDesc)))

/-- A pydantic model class as the builders see it: its `__name__` and the
dict produced by `model.schema(by_alias=False, ref_template=...)`.  The
optional `definitions` entry of that dict is held separately so that the
`model_spec.pop("definitions")` mutation can be expressed functionally. -/
structure PModel where
  name : String
  specBody : List (String × PyVal)
  specDefs : Option (List (String × PyVal))

/-- The full `model.schema(...)` dict, `definitions` entry included. -/
def PModel.fullSpec (m : PModel) : List (String × PyVal) :=
  match m.specDefs with
  | some defs => m.specBody ++ [("definitions", PyVal.dict defs)]
  | none => m.specBody

/-- One entry of `SwaggerMethodInfo.responses`: the Python dict
`{"model": cls, "description": maybe-str}`. -/
structure ResponseEntry where
  model : PModel
  description : Option String

/-- The `SwaggerMethodInfo` dataclass attached by `swagger_decorator`
(src/tornado_swagger/setup.py). -/
structure SwaggerMethodInfo where
  responses : List (Int × ResponseEntry)
  request : Option PModel
  query : Option PModel
  tags : Option (List String)

/-- Python annotations as keys of PYTHON_TO_OPENAPI_MAPPER: the nine mapped
types, the no-annotation marker `inspect.Parameter.empty`, and any other
type object. -/
inductive PyType where
  | pyInt | pyFloat | pyStr | pyBool | pyList | pyDict | pyNoneType
  | pyBytes | pyComplex
  | empty
  | other (name : String)
deriving DecidableEq

/-- What the builders read off one handler method: its docstring after
`inspect.unwrap` (`_try_extract_doc`), its declared argument names with
annotations in order (`self` included; feeds both `inspect.getfullargspec`
and `inspect.signature`), and the `_swagger_info` attribute if present. -/
structure MethodInfo where
  doc : Option String
  args : List (String × PyType)
  swaggerInfo : Option SwaggerMethodInfo

/-- A handler class.  Iterating `SUPPORTED_METHODS` and lowering each name
before `getattr` is modelled as iterating this association list, whose keys
are the lowercased method names; tornado's RequestHandler defines an
attribute for every supported method. -/
structure Handler where
  methods : List (String × MethodInfo)

/-- `getattr(handler, name)` for a method attribute. -/
def getattrMethod (h : Handler) (name : String) : Option MethodInfo :=
  alookup h.methods name

/-- A route as `_extract_paths` sees it: `route.regex.pattern` (the pattern
as compiled by tornado's URLSpec, which appends a `$` end-anchor when
absent), `route.regex.groups` (the compiled pattern's capturing-group
count), and `route.target`. -/
structure Route where
  regexPattern : String
  regexGroups : Nat
  target : Handler

/-- SWAGGER_DOC_SEPARATOR. -/
def SWAGGER_DOC_SEPARATOR : String := "---"

/-- Index of the first line containing the separator, if any. -/
def findSepIdx : List (List Char) → Option Nat
  | [] => none
  | l :: rest =>
    if listContainsSub SWAGGER_DOC_SEPARATOR.data l then some 0
    else match findSepIdx rest with
      | some i => some (i + 1)
      | none => none

/-- `_extract_swagger_definition`: keep the lines after the first line
containing the separator (all lines when none does) and rejoin with a
newline. -/
def extractSwaggerDefinition (endpointDoc : String) : String :=
  let lines := pySplitlines endpointDoc.data
  let lines :=
    match findSepIdx lines with
    | some i => lines.drop (i + 1)
    | none => lines
  String.mk (joinWithSep ['\n'] lines)

/-- Outcome of the external `yaml.safe_load` call: a parse failure
(yaml.YAMLError) or a loaded value. -/
inductive YamlOutcome where
  | parseError
  | value (v : PyVal)

/-- The YAML loader is external to the repository and is threaded through
as an oracle. -/
def YamlLoader : Type := String → YamlOutcome

/-- Is the outcome a successfully-loaded mapping? -/
def isYamlDict : YamlOutcome → Bool
  | .value (.dict _) => true
  | _ => false

/-- The fixed fallback fragment of `build_swagger_docs`. -/
def invalidSwaggerFallback : PyVal :=
  PyVal.dict
    [("description", PyVal.str "Swagger document could not be loaded from docstring"),
     ("tags", PyVal.list [PyVal.str "Invalid Swagger"])]

/-- `build_swagger_docs`: extract the block after the separator, normalise
tabs to four spaces, load it as YAML; anything but a mapping yields the
fallback fragment. -/
def buildSwaggerDocs (load : YamlLoader) (endpointDoc : String) : PyVal :=
  let txt := extractSwaggerDefinition endpointDoc
  let txt := String.mk (replaceTabs txt.data)
  match load txt with
  | .value (.dict d) => PyVal.dict d
  | _ => invalidSwaggerFallback

/-- One iteration of the loop in `_build_doc_from_func_doc`: a method
contributes an operation only when its docstring exists and contains the
separator. -/
def funcDocStep (load : YamlLoader) (out : List (String × PyVal))
    (entry : String × MethodInfo) : List (String × PyVal) :=
  match entry.2.doc with
  | some doc =>
    if strContainsSub doc SWAGGER_DOC_SEPARATOR then
      aset out entry.1 (buildSwaggerDocs load doc)
    else out
  | none => out

/-- `_build_doc_from_func_doc`. -/
def buildDocFromFuncDoc (load : YamlLoader) (h : Handler) : List (String × PyVal) :=
  h.methods.foldl (funcDocStep load) []

/-- The placeholder token of `_extract_parameters_names`. -/
def placeholderParam : String := "\x7b?\x7d"

/-- Python `set(arg) == {"_"}`: nonempty and made only of underscores. -/
def isAllUnderscore (s : String) : Bool :=
  !s.data.isEmpty && s.data.all (fun c => c = '_')

/-- `_try_extract_args`: `inspect.getfullargspec(...).args[1:]` (drop the
implicit first self/class argument). -/
def tryExtractArgs (mi : MethodInfo) : List String :=
  (mi.args.map Prod.fst).drop 1

/-- The assignment loop of `_extract_parameters_names`: argument i fills
slot i unless its name is all underscores; extra arguments are ignored and
unfilled slots keep the placeholder. -/
def assignParams : List String → List String → List String
  | params, [] => params
  | [], _ => []
  | p :: ps, a :: rest =>
    (if isAllUnderscore a then p else a) :: assignParams ps rest

/-- `_extract_parameters_names`.  When the method attribute is missing the
real code would raise AttributeError; in the generation pipeline the
attribute always exists (the method names come from the handler itself),
so the missing case is modelled as an empty argument list. -/
def extractParametersNames (handler : Handler) (parametersCount : Nat)
    (method : String) : List String :=
  if parametersCount = 0 then []
  else
    let parameters := List.replicate parametersCount placeholderParam
    let args :=
      match getattrMethod handler (pyLower method) with
      | some mi => tryExtractArgs mi
      | none => []
    assignParams parameters args

/-- Result of `_format_handler_path`: the templated path (None on the
group-count mismatch) plus the warning diagnostics emitted. -/
structure FormatOut where
  path : Option String
  warnings : List String
deriving DecidableEq

/-- The `warnings.warn` message of `_format_handler_path` (str(route) is
rendered as the route's pattern). -/
def illegalRouteWarning (route : Route) : String :=
  String.append
    "Illegal route. route.regex.groups does not match all parameters. Route = "
    route.regexPattern

/-- `_format_handler_path`: find the lazy parenthesised segments, compare
their count with the recovered parameter names, substitute left-to-right,
and strip exactly one trailing character (the end-anchor). -/
def formatHandlerPath (route : Route) (method : String) : FormatOut :=
  let parameters := extractParametersNames route.target route.regexGroups method
  let routePattern := route.regexPattern.data
  let brackets := findBrackets routePattern
  if brackets.length ≠ parameters.length then
    { path := none, warnings := [illegalRouteWarning route] }
  else
    let replaced := (brackets.zip parameters).foldl
      (fun pat pr => replaceFirst pat pr.1 ("\x7b".data ++ pr.2.data ++ "\x7d".data))
      routePattern
    { path := some (String.mk replaced.dropLast), warnings := [] }

/-- `paths[path].update({method: op})` on a `defaultdict(dict)`. -/
def updatePaths : List (String × List (String × PyVal)) → String → String → PyVal →
    List (String × List (String × PyVal))
  | [], p, m, op => [(p, [(m, op)])]
  | (q, ops) :: rest, p, m, op =>
    if q = p then (q, aset ops m op) :: rest
    else (q, ops) :: updatePaths rest p m op

/-- Accumulator of `_extract_paths`: the paths mapping and the warnings
emitted so far. -/
structure DocPathsState where
  paths : List (String × List (String × PyVal))
  warnings : List String

/-- One (method, operation) iteration of `_extract_paths`: format the path
and either skip the method (mismatch) or record the operation. -/
def docPathsMethodStep (route : Route) (st : DocPathsState)
    (mop : String × PyVal) : DocPathsState :=
  let f := formatHandlerPath route mop.1
  match f.path with
  | none => { st with warnings := st.warnings ++ f.warnings }
  | some p =>
    { paths := updatePaths st.paths p mop.1 mop.2
      warnings := st.warnings ++ f.warnings }

/-- One route iteration of `_extract_paths`. -/
def extractPathsRouteStep (load : YamlLoader) (st : DocPathsState)
    (route : Route) : DocPathsState :=
  (buildDocFromFuncDoc load route.target).foldl (docPathsMethodStep route) st

/-- The route loop of `_extract_paths`. -/
def extractPathsGo (load : YamlLoader) : DocPathsState → List Route → DocPathsState
  | st, [] => st
  | st, r :: rest => extractPathsGo load (extractPathsRouteStep load st r) rest

/-- `_extract_paths`. -/
def extractPaths (load : YamlLoader) (routes : List Route) : DocPathsState :=
  extractPathsGo load { paths := [], warnings := [] } routes

/-- PYTHON_TO_OPENAPI_MAPPER.  Absent keys (no annotation, or any other
type) make the Python subscript raise KeyError. -/
def PYTHON_TO_OPENAPI_MAPPER : PyType → Option PyVal
  | .pyInt => some (PyVal.dict [("type", PyVal.str "integer"), ("format", PyVal.str "int32")])
  | .pyFloat => some (PyVal.dict [("type", PyVal.str "number"), ("format", PyVal.str "float")])
  | .pyStr => some (PyVal.dict [("type", PyVal.str "string")])
  | .pyBool => some (PyVal.dict [("type", PyVal.str "boolean")])
  | .pyList => some (PyVal.dict [("type", PyVal.str "array"), ("items", PyVal.dict [])])
  | .pyDict => some (PyVal.dict [("type", PyVal.str "object")])
  | .pyNoneType => some (PyVal.dict [("nullable", PyVal.bool true)])
  | .pyBytes => some (PyVal.dict [("type", PyVal.str "string"), ("format", PyVal.str "byte")])
  | .pyComplex => some (PyVal.dict [("type", PyVal.str "number"), ("format", PyVal.str "double")])
  | .empty => none
  | .other _ => none

/-- `input_parameters_getter`: the declared parameters whose names are not
`self`/`cls`, with their annotations. -/
def inputParametersGetter (args : List (String × PyType)) : List (String × PyType) :=
  args.filter (fun p => p.1 ≠ "self" ∧ p.1 ≠ "cls")

/-- Errors the model-declaration pipeline can raise: the mapper KeyError on
an unmapped annotation, a KeyError on a missing dict key, an attribute
error on a non-dict `properties`, and the unknown-dialect ValueError. -/
inductive PyErr where
  | keyErrorType (t : PyType)
  | keyErrorStr (k : String)
  | attrError
  | valueError (msg : String)
deriving DecidableEq

/-- The path-parameter loop of `_build_input_and_query_doc`; raises at the
first annotation missing from the mapper. -/
def mapInputParameters : List (String × PyType) → Except PyErr (List PyVal)
  | [] => Except.ok []
  | (n, t) :: rest =>
    match PYTHON_TO_OPENAPI_MAPPER t with
    | none => Except.error (PyErr.keyErrorType t)
    | some schema =>
      match mapInputParameters rest with
      | Except.error e => Except.error e
      | Except.ok tail =>
        Except.ok (PyVal.dict
          [("in", PyVal.str "path"), ("required", PyVal.bool true),
           ("name", PyVal.str n), ("schema", schema)] :: tail)

/-- Python `name in required_list` where the list holds strings. -/
def listContainsStrVal (xs : List PyVal) (s : String) : Bool :=
  xs.any (fun v => match v with | PyVal.str t => t = s | _ => false)

/-- The query-model loop of `_build_input_and_query_doc`:
`query_schema["properties"]` must exist and be a dict (pydantic guarantees
this; otherwise Python raises), and each property becomes a query
parameter, required when listed in `query_schema.get("required", [])`. -/
def buildQueryParameters (query : PModel) : Except PyErr (List PyVal) :=
  match alookup query.fullSpec "properties" with
  | none => Except.error (PyErr.keyErrorStr "properties")
  | some (PyVal.dict props) =>
    let required :=
      match alookup query.fullSpec "required" with
      | some (PyVal.list xs) => xs
      | _ => []
    Except.ok (props.map (fun pr =>
      PyVal.dict
        [("in", PyVal.str "query"),
         ("required", PyVal.bool (listContainsStrVal required pr.1)),
         ("name", PyVal.str pr.1), ("schema", pr.2)]))
  | some _ => Except.error PyErr.attrError

/-- `_build_input_and_query_doc`. -/
def buildInputAndQueryDoc (inputParameters : List (String × PyType))
    (query : Option PModel) : Except PyErr (List PyVal) :=
  match mapInputParameters inputParameters with
  | Except.error e => Except.error e
  | Except.ok pathParams =>
    match query with
    | none => Except.ok pathParams
    | some q =>
      match buildQueryParameters q with
      | Except.error e => Except.error e
      | Except.ok queryParams => Except.ok (pathParams ++ queryParams)

/-- `_generate_default_description`. -/
def generateDefaultDescription (statusCode : Int) : String :=
  if statusCode < 400 then "Successful Response"
  else if statusCode < 500 then "Bad request"
  else "Internal Server Error"

/-- `_add_components_from_definitions`: flatten nested definitions into the
components schemas, skipping names already present (first write wins). -/
def addComponentsFromDefinitions (schemas : List (String × PyVal))
    (defs : List (String × PyVal)) : List (String × PyVal) :=
  defs.foldl
    (fun sch pr => if amem sch pr.1 then sch else sch ++ [(pr.1, pr.2)])
    schemas

/-- The per-response-model schema registration of `build_pydantic_docs`:
store the model's schema under its name when absent (the stored dict then
has its `definitions` entry popped, which the alias propagates), and fold
any nested definitions into the schemas. -/
def registerResponseModel (schemas : List (String × PyVal)) (m : PModel) :
    List (String × PyVal) :=
  let schemas :=
    if amem schemas m.name then schemas
    else schemas ++ [(m.name, PyVal.dict m.specBody)]
  match m.specDefs with
  | some defs => addComponentsFromDefinitions schemas defs
  | none => schemas

/-- The response value stored under a status code by `build_pydantic_docs`:
explicit non-empty description, or the status-code default, plus a `$ref`
to the registered schema. -/
def responseEntryDoc (statusCode : Int) (entry : ResponseEntry) : PyVal :=
  let description :=
    match entry.description with
    | some s => if s = "" then generateDefaultDescription statusCode else s
    | none => generateDefaultDescription statusCode
  PyVal.dict
    [("description", PyVal.str description),
     ("content", PyVal.dict
       [("application/json", PyVal.dict
         [("schema", PyVal.dict
           [("$ref", PyVal.str (String.append "#/components/schemas/" entry.model.name))])])])]

/-- The response loop of `build_pydantic_docs`. -/
def buildResponsesGo (schemas : List (String × PyVal))
    (responses : List (Int × PyVal)) :
    List (Int × ResponseEntry) → List (String × PyVal) × List (Int × PyVal)
  | [] => (schemas, responses)
  | (status, e) :: rest =>
    let schemas := registerResponseModel schemas e.model
    let responses := aset responses status (responseEntryDoc status e)
    buildResponsesGo schemas responses rest

/-- The request-model branch of `build_pydantic_docs`: fold the request
schema's nested definitions into the schemas, then attach the (popped)
schema as the request body. -/
def applyRequest (schemas : List (String × PyVal))
    (result : List (String × PyVal)) :
    Option PModel → List (String × PyVal) × List (String × PyVal)
  | none => (schemas, result)
  | some req =>
    let schemas :=
      match req.specDefs with
      | some defs => addComponentsFromDefinitions schemas defs
      | none => schemas
    (schemas,
     aset result "requestBody" (PyVal.dict
       [("content", PyVal.dict
         [("application/json", PyVal.dict [("schema", PyVal.dict req.specBody)])]),
        ("required", PyVal.bool true)]))

/-- The tag branch of `build_pydantic_docs` (`if tags:` — an empty list is
falsy and is omitted). -/
def applyTags (result : List (String × PyVal)) : Option (List String) →
    List (String × PyVal)
  | none => result
  | some ts => if ts.isEmpty then result else aset result "tags" (PyVal.list (ts.map PyVal.str))

/-- `build_pydantic_docs`: returns the updated components schemas and the
operation fragment for one method. -/
def buildPydanticDocs (schemas : List (String × PyVal))
    (inputParameters : List (String × PyType))
    (responseModels : List (Int × ResponseEntry))
    (request query : Option PModel) (tags : Option (List String)) :
    Except PyErr (List (String × PyVal) × List (String × PyVal)) :=
  match buildInputAndQueryDoc inputParameters query with
  | Except.error e => Except.error e
  | Except.ok parameters =>
    let result : List (String × PyVal) := []
    let result :=
      if parameters.isEmpty then result
      else aset result "parameters" (PyVal.list parameters)
    let sr := applyRequest schemas result request
    let rr := buildResponsesGo sr.1 [] responseModels
    let result := aset sr.2 "responses" (PyVal.intDict rr.2)
    Except.ok (rr.1, applyTags result tags)

/-- The method loop of `_build_doc_from_pydantic_handler`: methods without
an attached `_swagger_info` contribute nothing; the docstring is never
consulted. -/
def pydMethodsGo (schemas : List (String × PyVal))
    (out : List (String × PyVal)) :
    List (String × MethodInfo) →
    Except PyErr (List (String × PyVal) × List (String × PyVal))
  | [] => Except.ok (schemas, out)
  | (m, mi) :: rest =>
    match mi.swaggerInfo with
    | none => pydMethodsGo schemas out rest
    | some si =>
      match buildPydanticDocs schemas (inputParametersGetter mi.args)
          si.responses si.request si.query si.tags with
      | Except.error e => Except.error e
      | Except.ok sr => pydMethodsGo sr.1 (aset out m (PyVal.dict sr.2)) rest

/-- `_build_doc_from_pydantic_handler`. -/
def buildDocFromPydanticHandler (schemas : List (String × PyVal))
    (h : Handler) :
    Except PyErr (List (String × PyVal) × List (String × PyVal)) :=
  pydMethodsGo schemas [] h.methods

/-- Accumulator of `extract_paths_pydantic`: paths, components schemas and
warnings (the components `parameters` entry is never written). -/
structure PydState where
  paths : List (String × List (String × PyVal))
  schemas : List (String × PyVal)
  warnings : List String

/-- The `.items()` loop of `extract_paths_pydantic` for one route: format
each method's path, skipping the mismatched ones. -/
def pydRouteItemsGo (route : Route) (st : PydState) :
    List (String × PyVal) → PydState
  | [] => st
  | (m, op) :: rest =>
    let f := formatHandlerPath route m
    let st :=
      match f.path with
      | none => { st with warnings := st.warnings ++ f.warnings }
      | some p =>
        { st with paths := updatePaths st.paths p m op,
                  warnings := st.warnings ++ f.warnings }
    pydRouteItemsGo route st rest

/-- The route loop of `extract_paths_pydantic`. -/
def extractPathsPydanticGo : PydState → List Route → Except PyErr PydState
  | st, [] => Except.ok st
  | st, route :: rest =>
    match buildDocFromPydanticHandler st.schemas route.target with
    | Except.error e => Except.error e
    | Except.ok sr =>
      extractPathsPydanticGo (pydRouteItemsGo route { st with schemas := sr.1 } sr.2) rest

/-- `extract_paths_pydantic` on a fresh processor. -/
def extractPathsPydantic (routes : List Route) : Except PyErr PydState :=
  extractPathsPydanticGo { paths := [], schemas := [], warnings := [] } routes

/-- The keyword metadata of `generate_doc_from_endpoints`.  The `models`
and `parameters` entries stand for the exports of the process-wide Schema
Model Registry.  Modelled from the spec: `export_swagger_models` and
`export_swagger_parameters` (tornado_swagger/model.py and parameter.py,
not part of the sources) export the registry as name-to-fragment mappings,
so they enter the builders as plain inputs here. -/
structure DocMeta where
  apiBaseUrl : String
  description : String
  apiVersion : String
  title : String
  contact : String
  schemes : PyVal
  securityDefinitions : PyVal
  security : PyVal
  models : List (String × PyVal)
  parameters : List (String × PyVal)

/-- The `info` block shared by the three builders; a truthy (non-empty)
contact string appends a contact entry. -/
def buildInfo (title description apiVersion contact : String) : PyVal :=
  let base := [("title", PyVal.str title),
               ("description", PyVal.str (cleanDescription description)),
               ("version", PyVal.str apiVersion)]
  PyVal.dict
    (if contact = "" then base
     else aset base "contact" (PyVal.dict [("name", PyVal.str contact)]))

/-- The trailing `if security_definitions:` / `if security:` blocks common
to the three builders (empty collections are falsy and omitted). -/
def appendSecurity (spec : List (String × PyVal))
    (securityDefinitions security : PyVal) : List (String × PyVal) :=
  let spec :=
    if pyTruthy securityDefinitions then aset spec "securityDefinitions" securityDefinitions
    else spec
  if pyTruthy security then aset spec "security" security else spec

/-- The accumulated paths mapping as a document value. -/
def pathsToVal (paths : List (String × List (String × PyVal))) : PyVal :=
  PyVal.dict (paths.map (fun pr => (pr.1, PyVal.dict pr.2)))

/-- `Swagger2DocBuilder.generate_doc`; also returns the warnings emitted
while extracting paths. -/
def swagger2GenerateDoc (load : YamlLoader) (routes : List Route)
    (dm : DocMeta) : List (String × PyVal) × List String :=
  let st := extractPaths load routes
  let spec :=
    [("swagger", PyVal.str "2.0"),
     ("info", buildInfo dm.title dm.description dm.apiVersion dm.contact),
     ("basePath", PyVal.str dm.apiBaseUrl),
     ("schemes", dm.schemes),
     ("definitions", PyVal.dict dm.models),
     ("parameters", PyVal.dict dm.parameters),
     ("paths", pathsToVal st.paths)]
  (appendSecurity spec dm.securityDefinitions dm.security, st.warnings)

/-- `OpenApiDocBuilder.generate_doc`. -/
def openApi3GenerateDoc (load : YamlLoader) (routes : List Route)
    (dm : DocMeta) : List (String × PyVal) × List String :=
  let st := extractPaths load routes
  let spec :=
    [("openapi", PyVal.str "3.0.3"),
     ("info", buildInfo dm.title dm.description dm.apiVersion dm.contact),
     ("servers", PyVal.list [PyVal.dict [("url", PyVal.str dm.apiBaseUrl)]]),
     ("components", PyVal.dict
       [("schemas", PyVal.dict dm.models), ("parameters", PyVal.dict dm.parameters)]),
     ("paths", pathsToVal st.paths)]
  (appendSecurity spec dm.securityDefinitions dm.security, st.warnings)

/-- `PydanticBuilder.generate_doc`: runs a fresh PydanticRoutesProcessor
and embeds its paths and components. -/
def pydanticGenerateDoc (routes : List Route) (dm : DocMeta) :
    Except PyErr (List (String × PyVal) × List String) :=
  match extractPathsPydantic routes with
  | Except.error e => Except.error e
  | Except.ok st =>
    let spec :=
      [("openapi", PyVal.str "3.0.3"),
       ("info", buildInfo dm.title dm.description dm.apiVersion dm.contact),
       ("servers", PyVal.list [PyVal.dict [("url", PyVal.str dm.apiBaseUrl)]]),
       ("components", PyVal.dict
         [("schemas", PyVal.dict st.schemas), ("parameters", PyVal.dict [])]),
       ("paths", pathsToVal st.paths)]
    Except.ok (appendSecurity spec dm.securityDefinitions dm.security, st.warnings)

/-- Modelled from the spec: the dialect identifier for the legacy dialect
(tornado_swagger/const.py is not part of the sources; the exact string
only needs to be distinct from the other two). -/
def API_SWAGGER_2 : String := "swagger_2.0"

/-- Modelled from the spec: the dialect identifier for the reference
dialect. -/
def API_OPENAPI_3 : String := "openapi_3.0.3"

/-- Modelled from the spec: the dialect identifier for the
model-declaration dialect. -/
def API_OPENAPI_3_PYDANTIC : String := "openapi_3.0.3_pydantic"

/-- The keys of the `doc_builders` dispatch dict. -/
def docBuilderKeys : List String :=
  [API_SWAGGER_2, API_OPENAPI_3, API_OPENAPI_3_PYDANTIC]

/-- The fixed part of the unknown-dialect ValueError message. -/
def unknownVersionMsgPre : String := "Unknown api_definition_version = "

/-- `generate_doc_from_endpoints`: reject unknown dialect identifiers with
a ValueError naming the identifier, otherwise dispatch to the builder. -/
def generateDocFromEndpoints (load : YamlLoader) (routes : List Route)
    (dm : DocMeta) (apiDefinitionVersion : String) :
    Except PyErr (List (String × PyVal)) :=
  if docBuilderKeys.contains apiDefinitionVersion then
    if apiDefinitionVersion = API_SWAGGER_2 then
      Except.ok (swagger2GenerateDoc load routes dm).1
    else if apiDefinitionVersion = API_OPENAPI_3 then
      Except.ok (openApi3GenerateDoc load routes dm).1
    else
      match pydanticGenerateDoc routes dm with
      | Except.error e => Except.error e
      | Except.ok pr => Except.ok pr.1
  else
    Except.error (PyErr.valueError (String.append unknownVersionMsgPre apiDefinitionVersion))

/-- Did the call return normally? -/
def exceptIsOk {ε α : Type} : Except ε α → Bool
  | Except.ok _ => true
  | Except.error _ => false

/-- Errors arising from dict/mapper lookups inside the model-declaration
pipeline, as opposed to the unknown-dialect ValueError. -/
def isSchemaLookupErr : PyErr → Bool
  | PyErr.keyErrorType _ => true
  | PyErr.keyErrorStr _ => true
  | PyErr.attrError => true
  | PyErr.valueError _ => false

/-- Expected recovered name at position i: the i-th remaining declared
argument, unless it is all underscores or absent, in which case the
placeholder. -/
def expectedNameAt (args : List String) (i : Nat) : String :=
  match args.get? i with
  | some a => if isAllUnderscore a then placeholderParam else a
  | none => placeholderParam

/-- A YAML oracle that always fails to parse. -/
def yamlFail : YamlLoader := fun _ => YamlOutcome.parseError

/-- Minimal generation metadata for concrete runs. -/
def emptyMeta : DocMeta :=
  { apiBaseUrl := "/", description := "", apiVersion := "1.0.0",
    title := "API", contact := "", schemes := PyVal.pyNone,
    securityDefinitions := PyVal.pyNone, security := PyVal.pyNone,
    models := [], parameters := [] }

/-- A decorated `get(self, item_id)` without type annotations: its
`item_id` annotation is `inspect.Parameter.empty`, which is not a key of
PYTHON_TO_OPENAPI_MAPPER. -/
def exMethodUnmapped : MethodInfo :=
  { doc := none,
    args := [("self", PyType.empty), ("item_id", PyType.empty)],
    swaggerInfo := some
      { responses := [], request := none, query := none, tags := none } }

/-- A route binding the unmapped-annotation handler. -/
def exRouteUnmapped : Route :=
  { regexPattern := "/items/(.*)$", regexGroups := 1,
    target := { methods := [("get", exMethodUnmapped)] } }

/-- The `/items/(?P<item_id>[0-9]+)` route bound to a handler declaring
`get(self, item_id)` (pattern as compiled: end-anchor appended). -/
def exItemsRoute : Route :=
  { regexPattern := "/items/(?P<item_id>[0-9]+)$", regexGroups := 1,
    target := { methods :=
      [("get", { doc := none,
                 args := [("self", PyType.empty), ("item_id", PyType.empty)],
                 swaggerInfo := none })] } }

/-- A route whose compiled pattern has one capturing group but no
parenthesised segment text (engineered mismatch). -/
def exMismatchRoute : Route :=
  { regexPattern := "/plain$", regexGroups := 1,
    target := { methods :=
      [("get", { doc := some "summary\n---\nfoo: bar",
                 args := [("self", PyType.empty)],
                 swaggerInfo := none })] } }

/-- A `get(self, item_id, __)` method for the reflection extractor. -/
def exReflectHandler : Handler :=
  { methods :=
    [("get", { doc := none,
               args := [("self", PyType.empty), ("item_id", PyType.empty),
                        ("__", PyType.empty)],
               swaggerInfo := none })] }

/-- A second model that reuses the schema name "M". -/
def exSecondModel : PModel :=
  { name := "M", specBody := [("title", PyVal.str "Second")], specDefs := none }

/-- A route whose handler responds with the name-colliding model. -/
def exOverwriteRoute : Route :=
  { regexPattern := "/m$", regexGroups := 0,
    target := { methods :=
      [("get", { doc := none, args := [("self", PyType.empty)],
                 swaggerInfo := some
                   { responses := [(200, { model := exSecondModel,
                                           description := some "ok" })],
                     request := none, query := none, tags := none } })] } }

/-- A processor state in which the name "M" is already registered. -/
def exSeededState : PydState :=
  { paths := [], schemas := [("M", PyVal.str "first")], warnings := [] }

/-- A method with a well-formed docstring block but no `_swagger_info`. -/
def exDocOnlyMethod : MethodInfo :=
  { doc := some "summary\n---\nfoo: bar",
    args := [("self", PyType.empty)], swaggerInfo := none }

theorem listStartsWith_refl (l : List Char) : listStartsWith l l = true := by
  induction l with
  | nil => rfl
  | cons c rest ih => simp [listStartsWith, ih]

theorem listContainsSub_append_self (n pre : List Char) :
    listContainsSub n (pre ++ n) = true := by
  induction pre with
  | nil =>
    cases n with
    | nil => rfl
    | cons c rest => simp [listContainsSub, listStartsWith_refl]
  | cons p pre ih => simp [listContainsSub, ih]

theorem alookup_append_of_some {κ α : Type} [DecidableEq κ]
    (l m : List (κ × α)) (k : κ) (v : α) (h : alookup l k = some v) :
    alookup (l ++ m) k = some v := by
  induction l with
  | nil => simp [alookup] at h
  | cons p rest ih =>
    obtain ⟨pk, pv⟩ := p
    by_cases hk : pk = k
    · simp [alookup, hk] at h ⊢
      exact h
    · simp [alookup, hk] at h ⊢
      exact ih h

theorem alookup_aset_of_ne {κ α : Type} [DecidableEq κ]
    (l : List (κ × α)) (k1 k2 : κ) (v : α) (h : k1 ≠ k2) :
    alookup (aset l k2 v) k1 = alookup l k1 := by
  induction l with
  | nil => simp [aset, alookup, Ne.symm h]
  | cons p rest ih =>
    obtain ⟨pk, pv⟩ := p
    by_cases hk : pk = k2
    · subst hk
      simp [aset, alookup, Ne.symm h]
    · simp [aset, hk, alookup, ih]

theorem addComponentsFromDefinitions_preserves
    (defs : List (String × PyVal)) :
    ∀ (schemas : List (String × PyVal)) (k : String) (v : PyVal),
      alookup schemas k = some v →
      alookup (addComponentsFromDefinitions schemas defs) k = some v := by
  induction defs with
  | nil => intro schemas k v h; simpa [addComponentsFromDefinitions] using h
  | cons d rest ih =>
    intro schemas k v h
    have hstep :
        addComponentsFromDefinitions schemas (d :: rest) =
          addComponentsFromDefinitions
            (if amem schemas d.1 then schemas else schemas ++ [(d.1, d.2)]) rest := rfl
    rw [hstep]
    by_cases hm : amem schemas d.1
    · simp [hm]
      exact ih _ k v h
    · simp [hm]
      exact ih _ k v (alookup_append_of_some _ _ _ _ h)

theorem registerResponseModel_preserves (m : PModel)
    (schemas : List (String × PyVal)) (k : String) (v : PyVal)
    (h : alookup schemas k = some v) :
    alookup (registerResponseModel schemas m) k = some v := by
  unfold registerResponseModel
  have h1 : alookup
      (if amem schemas m.name then schemas else schemas ++ [(m.name, PyVal.dict m.specBody)])
      k = some v := by
    by_cases hm : amem schemas m.name
    · simpa [hm] using h
    · simp [hm]
      exact alookup_append_of_some _ _ _ _ h
  cases hd : m.specDefs with
  | none => simpa [hd] using h1
  | some defs =>
    simp [hd]
    exact addComponentsFromDefinitions_preserves defs _ k v h1

theorem buildResponsesGo_preserves
    (entries : List (Int × ResponseEntry)) :
    ∀ (schemas : List (String × PyVal)) (responses : List (Int × PyVal))
      (k : String) (v : PyVal),
      alookup schemas k = some v →
      alookup (buildResponsesGo schemas responses entries).1 k = some v := by
  induction entries with
  | nil => intro schemas responses k v h; simpa [buildResponsesGo] using h
  | cons e rest ih =>
    intro schemas responses k v h
    obtain ⟨status, entry⟩ := e
    simp [buildResponsesGo]
    exact ih _ _ k v (registerResponseModel_preserves _ _ _ _ h)

theorem applyRequest_preserves (request : Option PModel)
    (schemas result : List (String × PyVal)) (k : String) (v : PyVal)
    (h : alookup schemas k = some v) :
    alookup (applyRequest schemas result request).1 k = some v := by
  cases request with
  | none => simpa [applyRequest] using h
  | some req =>
    cases hd : req.specDefs with
    | none => simpa [applyRequest, hd] using h
    | some defs =>
      simp [applyRequest, hd]
      exact addComponentsFromDefinitions_preserves defs _ k v h

theorem buildPydanticDocs_preserves
    (schemas : List (String × PyVal)) (inputParameters : List (String × PyType))
    (responseModels : List (Int × ResponseEntry))
    (request query : Option PModel) (tags : Option (List String))
    (out : List (String × PyVal) × List (String × PyVal))
    (hok : buildPydanticDocs schemas inputParameters responseModels request query tags =
      Except.ok out)
    (k : String) (v : PyVal) (h : alookup schemas k = some v) :
    alookup out.1 k = some v := by
  unfold buildPydanticDocs at hok
  cases hq : buildInputAndQueryDoc inputParameters query with
  | error e => rw [hq] at hok; exact absurd hok (by simp)
  | ok parameters =>
    rw [hq] at hok
    simp at hok
    have h1 := applyRequest_preserves request schemas
      (if parameters.isEmpty then [] else aset [] "parameters" (PyVal.list parameters))
      k v h
    have h2 := buildResponsesGo_preserves responseModels _ [] k v h1
    rw [← hok]
    exact h2

theorem pydMethodsGo_preserves (methods : List (String × MethodInfo)) :
    ∀ (schemas out : List (String × PyVal))
      (res : List (String × PyVal) × List (String × PyVal)),
      pydMethodsGo schemas out methods = Except.ok res →
      ∀ (k : String) (v : PyVal), alookup schemas k = some v →
        alookup res.1 k = some v := by
  induction methods with
  | nil =>
    intro schemas out res hok k v h
    simp [pydMethodsGo] at hok
    rw [← hok]
    exact h
  | cons e rest ih =>
    intro schemas out res hok k v h
    obtain ⟨m, mi⟩ := e
    cases hsi : mi.swaggerInfo with
    | none =>
      simp [pydMethodsGo, hsi] at hok
      exact ih _ _ _ hok k v h
    | some si =>
      simp [pydMethodsGo, hsi] at hok
      cases hb : buildPydanticDocs schemas (inputParametersGetter mi.args)
          si.responses si.request si.query si.tags with
      | error e2 => rw [hb] at hok; exact absurd hok (by simp)
      | ok sr =>
        rw [hb] at hok
        exact ih _ _ _ hok k v
          (buildPydanticDocs_preserves _ _ _ _ _ _ _ hb k v h)

theorem pydRouteItemsGo_schemas (route : Route)
    (items : List (String × PyVal)) :
    ∀ (st : PydState), (pydRouteItemsGo route st items).schemas = st.schemas := by
  induction items with
  | nil => intro st; rfl
  | cons e rest ih =>
    intro st
    obtain ⟨m, op⟩ := e
    simp [pydRouteItemsGo]
    cases hp : (formatHandlerPath route m).path with
    | none => simp [hp, ih]
    | some p => simp [hp, ih]

theorem extractPathsPydanticGo_preserves (routes : List Route) :
    ∀ (st st2 : PydState),
      extractPathsPydanticGo st routes = Except.ok st2 →
      ∀ (k : String) (v : PyVal), alookup st.schemas k = some v →
        alookup st2.schemas k = some v := by
  induction routes with
  | nil =>
    intro st st2 hok k v h
    simp [extractPathsPydanticGo] at hok
    rw [← hok]
    exact h
  | cons r rest ih =>
    intro st st2 hok k v h
    simp [extractPathsPydanticGo] at hok
    cases hb : buildDocFromPydanticHandler st.schemas r.target with
    | error e => rw [hb] at hok; exact absurd hok (by simp)
    | ok sr =>
      rw [hb] at hok
      have hmid : alookup (pydRouteItemsGo r { st with schemas := sr.1 } sr.2).schemas k
          = some v := by
        rw [pydRouteItemsGo_schemas]
        exact pydMethodsGo_preserves r.target.methods st.schemas [] sr hb k v h
      exact ih _ _ hok k v hmid

theorem mapInputParameters_error (l : List (String × PyType)) :
    ∀ (e : PyErr), mapInputParameters l = Except.error e →
      isSchemaLookupErr e = true := by
  induction l with
  | nil => intro e h; exact absurd h (by simp [mapInputParameters])
  | cons p rest ih =>
    intro e h
    obtain ⟨n, t⟩ := p
    simp [mapInputParameters] at h
    cases hm : PYTHON_TO_OPENAPI_MAPPER t with
    | none =>
      rw [hm] at h
      simp at h
      rw [← h]
      rfl
    | some schema =>
      rw [hm] at h
      cases hr : mapInputParameters rest with
      | error e2 =>
        rw [hr] at h
        simp at h
        rw [← h]
        exact ih e2 hr
      | ok tail => rw [hr] at h; exact absurd h (by simp)

theorem buildQueryParameters_error (q : PModel) (e : PyErr)
    (h : buildQueryParameters q = Except.error e) :
    isSchemaLookupErr e = true := by
  unfold buildQueryParameters at h
  cases hp : alookup q.fullSpec "properties" with
  | none =>
    rw [hp] at h
    simp at h
    rw [← h]
    rfl
  | some v =>
    rw [hp] at h
    cases v with
    | dict props => simp at h
    | str s => simp at h; rw [← h]; rfl
    | bool b => simp at h; rw [← h]; rfl
    | pyNone => simp at h; rw [← h]; rfl
    | list xs => simp at h; rw [← h]; rfl
    | intDict kvs => simp at h; rw [← h]; rfl

theorem buildInputAndQueryDoc_error (inputParameters : List (String × PyType))
    (query : Option PModel) (e : PyErr)
    (h : buildInputAndQueryDoc inputParameters query = Except.error e) :
    isSchemaLookupErr e = true := by
  unfold buildInputAndQueryDoc at h
  cases hm : mapInputParameters inputParameters with
  | error e2 =>
    rw [hm] at h
    simp at h
    rw [← h]
    exact mapInputParameters_error _ e2 hm
  | ok pathParams =>
    rw [hm] at h
    cases query with
    | none => simp at h
    | some q =>
      simp at h
      cases hq : buildQueryParameters q with
      | error e3 =>
        rw [hq] at h
        simp at h
        rw [← h]
        exact buildQueryParameters_error q e3 hq
      | ok qp => rw [hq] at h; exact absurd h (by simp)

theorem buildPydanticDocs_error (schemas : List (String × PyVal))
    (inputParameters : List (String × PyType))
    (responseModels : List (Int × ResponseEntry))
    (request query : Option PModel) (tags : Option (List String)) (e : PyErr)
    (h : buildPydanticDocs schemas inputParameters responseModels request query tags =
      Except.error e) :
    isSchemaLookupErr e = true := by
  unfold buildPydanticDocs at h
  cases hq : buildInputAndQueryDoc inputParameters query with
  | error e2 =>
    rw [hq] at h
    simp at h
    rw [← h]
    exact buildInputAndQueryDoc_error _ _ e2 hq
  | ok parameters => rw [hq] at h; exact absurd h (by simp)

theorem pydMethodsGo_error (methods : List (String × MethodInfo)) :
    ∀ (schemas out : List (String × PyVal)) (e : PyErr),
      pydMethodsGo schemas out methods = Except.error e →
      isSchemaLookupErr e = true := by
  induction methods with
  | nil => intro schemas out e h; exact absurd h (by simp [pydMethodsGo])
  | cons p rest ih =>
    intro schemas out e h
    obtain ⟨m, mi⟩ := p
    cases hsi : mi.swaggerInfo with
    | none =>
      simp [pydMethodsGo, hsi] at h
      exact ih _ _ e h
    | some si =>
      simp [pydMethodsGo, hsi] at h
      cases hb : buildPydanticDocs schemas (inputParametersGetter mi.args)
          si.responses si.request si.query si.tags with
      | error e2 =>
        rw [hb] at h
        simp at h
        rw [← h]
        exact buildPydanticDocs_error _ _ _ _ _ _ e2 hb
      | ok sr =>
        rw [hb] at h
        exact ih _ _ e h

theorem extractPathsPydanticGo_error (routes : List Route) :
    ∀ (st : PydState) (e : PyErr),
      extractPathsPydanticGo st routes = Except.error e →
      isSchemaLookupErr e = true := by
  induction routes with
  | nil => intro st e h; exact absurd h (by simp [extractPathsPydanticGo])
  | cons r rest ih =>
    intro st e h
    simp [extractPathsPydanticGo] at h
    cases hb : buildDocFromPydanticHandler st.schemas r.target with
    | error e2 =>
      rw [hb] at h
      simp at h
      rw [← h]
      exact pydMethodsGo_error _ _ _ e2 hb
    | ok sr =>
      rw [hb] at h
      exact ih _ e h

theorem pydanticGenerateDoc_error (routes : List Route) (dm : DocMeta)
    (e : PyErr) (h : pydanticGenerateDoc routes dm = Except.error e) :
    isSchemaLookupErr e = true := by
  unfold pydanticGenerateDoc at h
  cases hx : extractPathsPydantic routes with
  | error e2 =>
    rw [hx] at h
    simp at h
    rw [← h]
    exact extractPathsPydanticGo_error _ _ e2 hx
  | ok st => rw [hx] at h; exact absurd h (by simp)

theorem assignParams_length (params : List String) :
    ∀ (args : List String), (assignParams params args).length = params.length := by
  induction params with
  | nil => intro args; cases args <;> rfl
  | cons p ps ih =>
    intro args
    cases args with
    | nil => rfl
    | cons a rest => simp [assignParams, ih]


theorem replicate_get?_placeholder (n : Nat) :
    ∀ (i : Nat), i < n →
      (List.replicate n placeholderParam).get? i = some placeholderParam := by
  induction n with
  | zero => intro i h; exact absurd h (by omega)
  | succ n ih =>
    intro i h
    cases i with
    | zero => rfl
    | succ j =>
      have hstep : (List.replicate (n + 1) placeholderParam).get? (j + 1) =
          (List.replicate n placeholderParam).get? j := rfl
      rw [hstep]
      exact ih j (by omega)

theorem assignParams_replicate_get? (n : Nat) :
    ∀ (args : List String) (i : Nat), i < n →
      (assignParams (List.replicate n placeholderParam) args).get? i =
        some (expectedNameAt args i) := by
  induction n with
  | zero => intro args i h; exact absurd h (by omega)
  | succ n ih =>
    intro args i h
    cases args with
    | nil =>
      have h0 : assignParams (List.replicate (n + 1) placeholderParam) [] =
          List.replicate (n + 1) placeholderParam := rfl
      rw [h0, replicate_get?_placeholder (n + 1) i h]
      rfl
    | cons a rest =>
      cases i with
      | zero => rfl
      | succ j =>
        have h0 : (assignParams (List.replicate (n + 1) placeholderParam)
            (a :: rest)).get? (j + 1) =
            (assignParams (List.replicate n placeholderParam) rest).get? j := rfl
        rw [h0]
        exact ih rest j (by omega)

theorem pySplitlinesGo_no_break :
    ∀ (cur cs : List Char), (∀ c ∈ cur, pyIsLineBreak c = false) →
      ∀ l ∈ pySplitlinesGo cur cs, ∀ c ∈ l, pyIsLineBreak c = false := by
  intro cur cs
  induction cur, cs using pySplitlinesGo.induct with
  | case1 cur hemp =>
    intro hcur l hl c hc
    simp [pySplitlinesGo, hemp] at hl
  | case2 cur hemp =>
    intro hcur l hl c hc
    simp [pySplitlinesGo, hemp] at hl
    rw [hl] at hc
    exact hcur c (List.mem_reverse.mp hc)
  | case3 cur rest ih =>
    intro hcur l hl c hc
    simp only [pySplitlinesGo] at hl
    rcases List.mem_cons.mp hl with h1 | h2
    · rw [h1] at hc
      exact hcur c (List.mem_reverse.mp hc)
    · exact ih (by intro x hx; simp at hx) l h2 c hc
  | case4 cur c0 rest hpat hbr ih =>
    intro hcur l hl c hc
    rw [pySplitlinesGo] at hl
    · rw [if_pos hbr] at hl
      rcases List.mem_cons.mp hl with h1 | h2
      · rw [h1] at hc
        exact hcur c (List.mem_reverse.mp hc)
      · exact ih (by intro x hx; simp at hx) l h2 c hc
    · exact hpat
  | case5 cur c0 rest hpat hbr ih =>
    intro hcur l hl c hc
    rw [pySplitlinesGo] at hl
    · rw [if_neg hbr] at hl
      refine ih ?_ l hl c hc
      intro x hx
      rcases List.mem_cons.mp hx with h1 | h2
      · rw [h1]
        simpa using hbr
      · exact hcur x h2
    · exact hpat

theorem joinWithSep_mem (sep : List Char) :
    ∀ (ls : List (List Char)) (c : Char), c ∈ joinWithSep sep ls →
      c ∈ sep ∨ ∃ l ∈ ls, c ∈ l := by
  intro ls
  induction ls using joinWithSep.induct sep with
  | case1 =>
    intro c hc
    simp [joinWithSep] at hc
  | case2 l =>
    intro c hc
    simp only [joinWithSep] at hc
    right
    exact ⟨l, by simp, hc⟩
  | case3 l l2 rest ih =>
    intro c hc
    simp only [joinWithSep] at hc
    rcases List.mem_append.mp hc with h1 | h2
    · rcases List.mem_append.mp h1 with h3 | h4
      · right
        exact ⟨l, by simp, h3⟩
      · left
        exact h4
    · rcases ih c h2 with h3 | ⟨l3, hl3, hc3⟩
      · left
        exact h3
      · right
        exact ⟨l3, by simp [List.mem_cons.mp hl3], hc3⟩

theorem findStartDescGo_shift :
    ∀ (l : List Char), (∃ c ∈ l, c ≠ '\n') →
      ∀ (i : Nat), findStartDescGo i l = i + findStartDescGo 0 l := by
  intro l
  induction l with
  | nil => intro h; exact absurd h (by simp)
  | cons d rest ih =>
    intro h i
    by_cases hd : d = '\n'
    · have hrest : ∃ c ∈ rest, c ≠ '\n' := by
        rcases h with ⟨c, hc, hcn⟩
        rcases List.mem_cons.mp hc with h1 | h2
        · exact absurd (h1.trans hd) hcn
        · exact ⟨c, h2, hcn⟩
      simp only [findStartDescGo, if_pos hd]
      rw [ih hrest (i + 1), ih hrest 1]
      omega
    · simp [findStartDescGo, hd]

theorem drop_findStartDesc :
    ∀ (cs : List Char), (∃ c ∈ cs, c ≠ '\n') →
      cs.drop (findStartDescGo 0 cs) = cs.dropWhile (fun c => c == '\n') := by
  intro cs
  induction cs with
  | nil => intro h; exact absurd h (by simp)
  | cons d rest ih =>
    intro h
    by_cases hd : d = '\n'
    · have hrest : ∃ c ∈ rest, c ≠ '\n' := by
        rcases h with ⟨c, hc, hcn⟩
        rcases List.mem_cons.mp hc with h1 | h2
        · exact absurd (h1.trans hd) hcn
        · exact ⟨c, h2, hcn⟩
      have h1 : findStartDescGo 0 (d :: rest) = findStartDescGo 0 rest + 1 := by
        simp only [findStartDescGo, if_pos hd]
        rw [findStartDescGo_shift rest hrest 1]
        omega
      rw [h1]
      have h2 : (d :: rest).drop (findStartDescGo 0 rest + 1) =
          rest.drop (findStartDescGo 0 rest) := rfl
      rw [h2, ih hrest]
      simp [List.dropWhile, hd]
    · have hb : (d == '\n') = false := by simpa using hd
      simp [findStartDescGo, hd, List.dropWhile, hb]

theorem appendSecurity_alookup (spec : List (String × PyVal)) (sd sec : PyVal)
    (k : String) (h1 : k ≠ "securityDefinitions") (h2 : k ≠ "security") :
    alookup (appendSecurity spec sd sec) k = alookup spec k := by
  simp only [appendSecurity]
  by_cases t2 : pyTruthy sec
  · rw [if_pos t2, alookup_aset_of_ne _ _ _ _ h2]
    by_cases t1 : pyTruthy sd
    · rw [if_pos t1, alookup_aset_of_ne _ _ _ _ h1]
    · rw [if_neg t1]
  · rw [if_neg t2]
    by_cases t1 : pyTruthy sd
    · rw [if_pos t1, alookup_aset_of_ne _ _ _ _ h1]
    · rw [if_neg t1]

theorem buildInfo_description (title description apiVersion contact : String) :
    dictLookup (buildInfo title description apiVersion contact) "description" =
      some (PyVal.str (cleanDescription description)) := by
  simp only [buildInfo]
  by_cases hc : contact = ""
  · rw [if_pos hc]
    rfl
  · rw [if_neg hc]
    rfl

/-- C1: when the count of lazy parenthesised segments found in the route's
compiled pattern differs from the count of recovered parameter names, the
Path Formatter returns no path and emits the warning diagnostic, the Route
Processor records no operation for that route/method (the paths mapping is
unchanged), and the route loop simply continues with the rest. -/
theorem c1_group_mismatch_skips :
    ∀ (r : Route) (m : String),
      (findBrackets r.regexPattern.data).length ≠
        (extractParametersNames r.target r.regexGroups m).length →
      formatHandlerPath r m =
        { path := none, warnings := [illegalRouteWarning r] } ∧
      (∀ (st : DocPathsState) (op : PyVal),
        docPathsMethodStep r st (m, op) =
          { st with warnings := st.warnings ++ [illegalRouteWarning r] }) ∧
      (∀ (load : YamlLoader) (st : DocPathsState) (rest : List Route),
        extractPathsGo load st (r :: rest) =
          extractPathsGo load (extractPathsRouteStep load st r) rest) := by
  intro r m h
  have hf : formatHandlerPath r m =
      { path := none, warnings := [illegalRouteWarning r] } := by
    simp only [formatHandlerPath]
    rw [if_pos h]
  refine ⟨hf, ?_, ?_⟩
  · intro st op
    simp [docPathsMethodStep, hf]
  · intro load st rest
    rfl

/-- C1 witness: a route whose compiled pattern has no parenthesised segment
but one capturing group is skipped with a warning. -/
theorem c1_group_mismatch_skips_witness :
    (findBrackets exMismatchRoute.regexPattern.data).length ≠
      (extractParametersNames exMismatchRoute.target exMismatchRoute.regexGroups
        "get").length ∧
    formatHandlerPath exMismatchRoute "get" =
      { path := none, warnings := [illegalRouteWarning exMismatchRoute] } ∧
    docPathsMethodStep exMismatchRoute { paths := [], warnings := [] }
        ("get", PyVal.dict []) =
      { paths := [], warnings := [illegalRouteWarning exMismatchRoute] } := by
  have h : (findBrackets exMismatchRoute.regexPattern.data).length ≠
      (extractParametersNames exMismatchRoute.target exMismatchRoute.regexGroups
        "get").length := by decide
  have hmain := c1_group_mismatch_skips exMismatchRoute "get" h
  exact ⟨h, hmain.1, hmain.2.1 { paths := [], warnings := [] } (PyVal.dict [])⟩

/-- C2: a method with no docstring, or a docstring without the separator,
contributes no operation at all; when the separator is present the
operation is `build_swagger_docs` of the docstring, which is exactly the
fixed fallback fragment whenever the tab-normalised text after the first
separator line does not load as a YAML mapping. -/
theorem c2_docstring_extraction_fallback :
    ∀ (load : YamlLoader) (m : String) (mi : MethodInfo)
      (out : List (String × PyVal)) (doc : String),
      (mi.doc = none → funcDocStep load out (m, mi) = out) ∧
      (mi.doc = some doc → strContainsSub doc SWAGGER_DOC_SEPARATOR = false →
        funcDocStep load out (m, mi) = out) ∧
      (isYamlDict (load (String.mk (replaceTabs (extractSwaggerDefinition doc).data))) =
          false →
        buildSwaggerDocs load doc = invalidSwaggerFallback) ∧
      (mi.doc = some doc → strContainsSub doc SWAGGER_DOC_SEPARATOR = true →
        funcDocStep load out (m, mi) = aset out m (buildSwaggerDocs load doc)) := by
  intro load m mi out doc
  refine ⟨?_, ?_, ?_, ?_⟩
  · intro h
    simp [funcDocStep, h]
  · intro h1 h2
    simp [funcDocStep, h1, h2]
  · intro h
    simp only [buildSwaggerDocs]
    cases hl : load (String.mk (replaceTabs (extractSwaggerDefinition doc).data)) with
    | parseError => rfl
    | value v =>
      cases v with
      | dict d =>
        rw [hl] at h
        simp [isYamlDict] at h
      | str s => rfl
      | bool b => rfl
      | pyNone => rfl
      | list xs => rfl
      | intDict kvs => rfl
  · intro h1 h2
    simp [funcDocStep, h1, h2]

/-- C2 witness: with a loader that always fails, a separator-less docstring
is skipped and a docstring with a separator produces exactly the fallback
operation. -/
theorem c2_docstring_extraction_fallback_witness :
    funcDocStep yamlFail []
      ("get", { doc := some "no separator here",
                args := [("self", PyType.empty)], swaggerInfo := none }) = [] ∧
    funcDocStep yamlFail []
      ("get", { doc := none, args := [("self", PyType.empty)],
                swaggerInfo := none }) = [] ∧
    buildSwaggerDocs yamlFail "summary\n---\n\tbad: [" = invalidSwaggerFallback := by
  refine ⟨?_, ?_, ?_⟩
  · exact (c2_docstring_extraction_fallback yamlFail "get"
      { doc := some "no separator here", args := [("self", PyType.empty)],
        swaggerInfo := none } [] "no separator here").2.1 rfl (by decide)
  · exact (c2_docstring_extraction_fallback yamlFail "get"
      { doc := none, args := [("self", PyType.empty)], swaggerInfo := none }
      [] "").1 rfl
  · exact (c2_docstring_extraction_fallback yamlFail "get"
      { doc := some "summary\n---\n\tbad: [", args := [("self", PyType.empty)],
        swaggerInfo := none } [] "summary\n---\n\tbad: [").2.2.1 rfl

/-- C4: a response-model entry with no description (or an empty one, which
is falsy) gets the status-code default — strictly below 400 "Successful
Response", 400 to 499 "Bad request", 500 and above "Internal Server
Error" — while a non-empty supplied description is used unchanged. -/
theorem c4_default_response_descriptions :
    ∀ (status : Int) (entry : ResponseEntry),
      ((entry.description = none ∨ entry.description = some "") →
        dictLookup (responseEntryDoc status entry) "description" =
          some (PyVal.str (generateDefaultDescription status))) ∧
      (status < 400 → generateDefaultDescription status = "Successful Response") ∧
      (400 ≤ status → status < 500 →
        generateDefaultDescription status = "Bad request") ∧
      (500 ≤ status → generateDefaultDescription status = "Internal Server Error") ∧
      (∀ s : String, entry.description = some s → s ≠ "" →
        dictLookup (responseEntryDoc status entry) "description" =
          some (PyVal.str s)) := by
  intro status entry
  refine ⟨?_, ?_, ?_, ?_, ?_⟩
  · intro h
    rcases h with h | h
    · simp [responseEntryDoc, h, dictLookup, alookup]
    · simp [responseEntryDoc, h, dictLookup, alookup]
  · intro h
    simp [generateDefaultDescription, h]
  · intro h1 h2
    rw [generateDefaultDescription, if_neg (by omega), if_pos (by omega)]
  · intro h
    rw [generateDefaultDescription, if_neg (by omega), if_neg (by omega)]
  · intro s hdesc hne
    simp [responseEntryDoc, hdesc, hne, dictLookup, alookup]

/-- C4 witness: 200 and 404 and 500 with no description get the defaults;
a supplied description is kept. -/
theorem c4_default_response_descriptions_witness :
    dictLookup (responseEntryDoc 200
        { model := exSecondModel, description := none }) "description" =
      some (PyVal.str "Successful Response") ∧
    dictLookup (responseEntryDoc 404
        { model := exSecondModel, description := none }) "description" =
      some (PyVal.str "Bad request") ∧
    dictLookup (responseEntryDoc 500
        { model := exSecondModel, description := none }) "description" =
      some (PyVal.str "Internal Server Error") ∧
    dictLookup (responseEntryDoc 200
        { model := exSecondModel, description := some "custom" }) "description" =
      some (PyVal.str "custom") := by
  have h200 := c4_default_response_descriptions 200
    { model := exSecondModel, description := none }
  have h404 := c4_default_response_descriptions 404
    { model := exSecondModel, description := none }
  have h500 := c4_default_response_descriptions 500
    { model := exSecondModel, description := none }
  have hcust := c4_default_response_descriptions 200
    { model := exSecondModel, description := some "custom" }
  refine ⟨?_, ?_, ?_, ?_⟩
  · rw [h200.1 (Or.inl rfl), h200.2.1 (by omega)]
  · rw [h404.1 (Or.inl rfl), h404.2.2.1 (by omega) (by omega)]
  · rw [h500.1 (Or.inl rfl), h500.2.2.2.1 (by omega)]
  · exact hcust.2.2.2.2 "custom" rfl (by decide)

/-- C7: for a method found on the handler, the Reflection Extractor returns
exactly N names; slot i holds the (i+1)-th declared argument after the
implicit first one, with all-underscore names and out-of-range slots
yielding the placeholder; N = 0 gives the empty list, and the same
signature always gives the same list. -/
theorem c7_reflection_extractor_names :
    ∀ (h : Handler) (method : String) (mi : MethodInfo) (n : Nat),
      getattrMethod h (pyLower method) = some mi →
        (extractParametersNames h n method).length = n ∧
        (n = 0 → extractParametersNames h n method = []) ∧
        (∀ i, i < n → (extractParametersNames h n method).get? i =
          some (expectedNameAt (tryExtractArgs mi) i)) ∧
        (∀ h2 : Handler, getattrMethod h2 (pyLower method) = some mi →
          extractParametersNames h2 n method = extractParametersNames h n method) := by
  intro h method mi n hget
  by_cases hn : n = 0
  · subst hn
    refine ⟨rfl, fun _ => rfl, ?_, ?_⟩
    · intro i hi
      exact absurd hi (by omega)
    · intro h2 hget2
      rfl
  · refine ⟨?_, fun h0 => absurd h0 hn, ?_, ?_⟩
    · simp [extractParametersNames, hn, hget, assignParams_length]
    · intro i hi
      simp only [extractParametersNames, if_neg hn, hget]
      exact assignParams_replicate_get? n (tryExtractArgs mi) i hi
    · intro h2 hget2
      simp [extractParametersNames, hget, hget2]

/-- C7 witness: a `get(self, item_id, __)` signature with three expected
groups yields `[item_id, placeholder, placeholder]`. -/
theorem c7_reflection_extractor_names_witness :
    getattrMethod exReflectHandler (pyLower "get") =
      some { doc := none,
             args := [("self", PyType.empty), ("item_id", PyType.empty),
                      ("__", PyType.empty)],
             swaggerInfo := none } ∧
    (extractParametersNames exReflectHandler 3 "get").length = 3 ∧
    (extractParametersNames exReflectHandler 3 "get").get? 0 = some "item_id" ∧
    (extractParametersNames exReflectHandler 3 "get").get? 1 = some placeholderParam ∧
    (extractParametersNames exReflectHandler 3 "get").get? 2 = some placeholderParam := by
  have hmain := c7_reflection_extractor_names exReflectHandler "get"
    { doc := none,
      args := [("self", PyType.empty), ("item_id", PyType.empty),
               ("__", PyType.empty)],
      swaggerInfo := none } 3 rfl
  refine ⟨rfl, hmain.1, ?_, ?_, ?_⟩
  · exact hmain.2.2.1 0 (by omega)
  · exact hmain.2.2.1 1 (by omega)
  · exact hmain.2.2.1 2 (by omega)

/-- C8: the `/items/(?P<item_id>[0-9]+)` route with `get(self, item_id)`
formats to `/items/{item_id}`: one lazy parenthesised segment is found,
`item_id` is recovered, the segment is replaced by the braced name, and
exactly the one-character end-anchor is stripped. -/
theorem c8_item_id_path_format :
    formatHandlerPath exItemsRoute "get" =
      { path := some "/items/\x7bitem_id\x7d", warnings := [] } ∧
    findBrackets exItemsRoute.regexPattern.data = ["(?P<item_id>[0-9]+)".data] ∧
    extractParametersNames exItemsRoute.target exItemsRoute.regexGroups "get" =
      ["item_id"] ∧
    replaceFirst exItemsRoute.regexPattern.data "(?P<item_id>[0-9]+)".data
        "\x7bitem_id\x7d".data =
      "/items/\x7bitem_id\x7d$".data := by
  refine ⟨?_, ?_, ?_, ?_⟩ <;> decide

/-- C9: a handler method with no attached Swagger Method Info contributes
no operation under the model-declaration processor, and the processor's
output never depends on the method's docstring. -/
theorem c9_no_swagger_info_no_operation :
    ∀ (schemas out : List (String × PyVal)) (m : String) (mi : MethodInfo)
      (rest : List (String × MethodInfo)),
      (mi.swaggerInfo = none →
        pydMethodsGo schemas out ((m, mi) :: rest) = pydMethodsGo schemas out rest) ∧
      (∀ d : Option String,
        pydMethodsGo schemas out ((m, { mi with doc := d }) :: rest) =
          pydMethodsGo schemas out ((m, mi) :: rest)) := by
  intro schemas out m mi rest
  constructor
  · intro h
    simp [pydMethodsGo, h]
  · intro d
    cases mi
    rfl

/-- C9 witness: a method with a well-formed docstring block but no
`_swagger_info` is skipped by the pydantic processor. -/
theorem c9_no_swagger_info_no_operation_witness :
    exDocOnlyMethod.swaggerInfo = none ∧
    pydMethodsGo [] [] [("get", exDocOnlyMethod)] = pydMethodsGo [] [] [] ∧
    pydMethodsGo [] [] [("get", { exDocOnlyMethod with doc := none })] =
      pydMethodsGo [] [] [("get", exDocOnlyMethod)] := by
  have hmain := c9_no_swagger_info_no_operation [] [] "get" exDocOnlyMethod []
  exact ⟨rfl, hmain.1 rfl, hmain.2 none⟩

theorem string_data_append (a b : String) :
    (String.append a b).data = a.data ++ b.data := by
  cases a
  cases b
  rfl

theorem builder_info_description (spec : List (String × PyVal)) (sd sec : PyVal)
    (t d ver c : String) (hspec : alookup spec "info" = some (buildInfo t d ver c)) :
    dictLookup2 (appendSecurity spec sd sec) "info" "description" =
      some (PyVal.str (cleanDescription d)) := by
  unfold dictLookup2
  rw [appendSecurity_alookup _ _ _ _ (by decide) (by decide), hspec]
  exact buildInfo_description t d ver c

/-- C3 counterexample: under the recognised model-declaration dialect, a
route whose decorated `get` has an unannotated path parameter makes the
whole generation call raise (the mapper subscript KeyError), so generation
with a recognised dialect is not error-free. -/
theorem c3_pydantic_keyerror_counterexample :
    generateDocFromEndpoints yamlFail [exRouteUnmapped] emptyMeta
      API_OPENAPI_3_PYDANTIC =
      Except.error (PyErr.keyErrorType PyType.empty) := by
  rfl

/-- C3 amended: generation with the two docstring dialects never raises for
any route list; under the model-declaration dialect the only errors that
can abort generation are the uncontained schema-lookup errors (an
annotation missing from the primitive-type mapper, or a query model
without a dict `properties` entry), never the unknown-dialect error. -/
theorem c3_amended_containment :
    ∀ (load : YamlLoader) (routes : List Route) (dm : DocMeta),
      exceptIsOk (generateDocFromEndpoints load routes dm API_SWAGGER_2) = true ∧
      exceptIsOk (generateDocFromEndpoints load routes dm API_OPENAPI_3) = true ∧
      (∀ e, generateDocFromEndpoints load routes dm API_OPENAPI_3_PYDANTIC =
          Except.error e → isSchemaLookupErr e = true) := by
  intro load routes dm
  refine ⟨rfl, rfl, ?_⟩
  intro e h
  have h0 : generateDocFromEndpoints load routes dm API_OPENAPI_3_PYDANTIC =
      (match pydanticGenerateDoc routes dm with
       | Except.error e2 => Except.error e2
       | Except.ok pr => Except.ok pr.1) := rfl
  rw [h0] at h
  cases hp : pydanticGenerateDoc routes dm with
  | error e2 =>
    rw [hp] at h
    simp at h
    rw [← h]
    exact pydanticGenerateDoc_error routes dm e2 hp
  | ok pr =>
    rw [hp] at h
    exact absurd h (by simp)

/-- C3 amended witness: a concrete successful run of the two docstring
dialects and a concrete classified pydantic failure. -/
theorem c3_amended_containment_witness :
    exceptIsOk (generateDocFromEndpoints yamlFail [] emptyMeta API_SWAGGER_2) = true ∧
    exceptIsOk (generateDocFromEndpoints yamlFail [] emptyMeta API_OPENAPI_3) = true ∧
    isSchemaLookupErr (PyErr.keyErrorType PyType.empty) = true := by
  have h1 := c3_amended_containment yamlFail [] emptyMeta
  have h2 := c3_amended_containment yamlFail [exRouteUnmapped] emptyMeta
  exact ⟨h1.1, h1.2.1, h2.2.2 (PyErr.keyErrorType PyType.empty) rfl⟩

/-- C5: once a schema fragment is stored under a name in the components
schemas, no later-processed response model or nested definition with the
same name replaces it — processing any further routes preserves the
binding — and the final pydantic document embeds the accumulated schemas
mapping unchanged under components/schemas. -/
theorem c5_first_write_wins :
    (∀ (st : PydState) (routes : List Route) (st2 : PydState) (k : String)
       (v : PyVal),
      extractPathsPydanticGo st routes = Except.ok st2 →
      alookup st.schemas k = some v → alookup st2.schemas k = some v) ∧
    (∀ (routes : List Route) (dm : DocMeta)
       (pr : List (String × PyVal) × List String),
      pydanticGenerateDoc routes dm = Except.ok pr →
      ∃ st2, extractPathsPydantic routes = Except.ok st2 ∧
        dictLookup2 pr.1 "components" "schemas" = some (PyVal.dict st2.schemas)) := by
  constructor
  · intro st routes st2 k v hok h
    exact extractPathsPydanticGo_preserves routes st st2 hok k v h
  · intro routes dm pr hok
    unfold pydanticGenerateDoc at hok
    cases hx : extractPathsPydantic routes with
    | error e =>
      rw [hx] at hok
      exact absurd hok (by simp)
    | ok st2 =>
      rw [hx] at hok
      simp at hok
      refine ⟨st2, rfl, ?_⟩
      rw [← hok]
      unfold dictLookup2
      rw [appendSecurity_alookup _ _ _ _ (by decide) (by decide)]
      rfl

/-- C5 witness: with "M" already registered, a route that responds with a
different model also named "M" leaves the first fragment in place. -/
theorem c5_first_write_wins_witness :
    alookup exSeededState.schemas "M" = some (PyVal.str "first") ∧
    (∃ st2, extractPathsPydanticGo exSeededState [exOverwriteRoute] = Except.ok st2 ∧
      alookup st2.schemas "M" = some (PyVal.str "first")) := by
  refine ⟨rfl, Exists.intro _ ⟨rfl, ?_⟩⟩
  exact c5_first_write_wins.1 exSeededState [exOverwriteRoute] _ "M"
    (PyVal.str "first") rfl rfl

/-- C6: an identifier outside the dispatch registry makes generation raise
the ValueError whose message contains the identifier (and nothing is
built), while each of the three registered identifiers generates a
document (shown on the empty route list). -/
theorem c6_dialect_dispatch :
    ∀ (v : String),
      (docBuilderKeys.contains v = false →
        (∀ (load : YamlLoader) (routes : List Route) (dm : DocMeta),
          generateDocFromEndpoints load routes dm v =
            Except.error (PyErr.valueError (String.append unknownVersionMsgPre v))) ∧
        strContainsSub (String.append unknownVersionMsgPre v) v = true) ∧
      (docBuilderKeys.contains v = true →
        ∀ (load : YamlLoader) (dm : DocMeta),
          exceptIsOk (generateDocFromEndpoints load [] dm v) = true) := by
  intro v
  constructor
  · intro h
    constructor
    · intro load routes dm
      have hcond : ¬ (docBuilderKeys.contains v = true) := by
        intro hc
        rw [h] at hc
        exact Bool.false_ne_true hc
      unfold generateDocFromEndpoints
      rw [if_neg hcond]
    · unfold strContainsSub
      rw [string_data_append]
      exact listContainsSub_append_self v.data unknownVersionMsgPre.data
  · intro h load dm
    have hv : v = API_SWAGGER_2 ∨ v = API_OPENAPI_3 ∨ v = API_OPENAPI_3_PYDANTIC := by
      simpa [docBuilderKeys] using h
    rcases hv with h1 | h1 | h1 <;> subst h1 <;> rfl

/-- C6 witness: "not-a-real-dialect" is rejected with a message containing
it, and the legacy identifier generates a document. -/
theorem c6_dialect_dispatch_witness :
    generateDocFromEndpoints yamlFail [] emptyMeta "not-a-real-dialect" =
      Except.error (PyErr.valueError
        (String.append unknownVersionMsgPre "not-a-real-dialect")) ∧
    strContainsSub (String.append unknownVersionMsgPre "not-a-real-dialect")
      "not-a-real-dialect" = true ∧
    exceptIsOk (generateDocFromEndpoints yamlFail [] emptyMeta API_SWAGGER_2) = true := by
  have hbad := (c6_dialect_dispatch "not-a-real-dialect").1 (by decide)
  have hgood := (c6_dialect_dispatch API_SWAGGER_2).2 (by decide) yamlFail emptyMeta
  exact ⟨hbad.1 yamlFail [] emptyMeta, hbad.2, hgood⟩

/-- C10: the cleaned description contains no line-break character at all;
when the input has any non-newline character the cleaning equals dropping
the leading newlines and joining the split lines with four spaces; and all
three builders embed exactly the cleaned description in info/description. -/
theorem c10_description_flattened :
    ∀ (s : String) (load : YamlLoader) (routes : List Route) (dm : DocMeta),
      (∀ c ∈ (cleanDescription s).data, pyIsLineBreak c = false) ∧
      ((∃ c ∈ s.data, c ≠ '\n') →
        cleanDescription s = String.mk (joinWithSep spaces4
          (pySplitlines (s.data.dropWhile (fun c => c == '\n'))))) ∧
      dictLookup2 (swagger2GenerateDoc load routes dm).1 "info" "description" =
        some (PyVal.str (cleanDescription dm.description)) ∧
      dictLookup2 (openApi3GenerateDoc load routes dm).1 "info" "description" =
        some (PyVal.str (cleanDescription dm.description)) ∧
      (∀ pr, pydanticGenerateDoc routes dm = Except.ok pr →
        dictLookup2 pr.1 "info" "description" =
          some (PyVal.str (cleanDescription dm.description))) := by
  intro s load routes dm
  refine ⟨?_, ?_, ?_, ?_, ?_⟩
  · intro c hc
    have hc2 : c ∈ joinWithSep spaces4
        (pySplitlines (s.data.drop (findStartDescGo 0 s.data))) := hc
    rcases joinWithSep_mem spaces4 _ c hc2 with h1 | ⟨l, hl, hcl⟩
    · have hsp : c = ' ' := by simpa [spaces4] using h1
      rw [hsp]
      decide
    · exact pySplitlinesGo_no_break [] _ (by intro x hx; simp at hx) l hl c hcl
  · intro h
    simp only [cleanDescription]
    rw [drop_findStartDesc s.data h]
  · exact builder_info_description _ dm.securityDefinitions dm.security
      dm.title dm.description dm.apiVersion dm.contact rfl
  · exact builder_info_description _ dm.securityDefinitions dm.security
      dm.title dm.description dm.apiVersion dm.contact rfl
  · intro pr hok
    unfold pydanticGenerateDoc at hok
    cases hx : extractPathsPydantic routes with
    | error e =>
      rw [hx] at hok
      exact absurd hok (by simp)
    | ok st2 =>
      rw [hx] at hok
      simp at hok
      rw [← hok]
      exact builder_info_description _ dm.securityDefinitions dm.security
        dm.title dm.description dm.apiVersion dm.contact rfl

/-- C10 witness: a concrete multi-line description is flattened, and the
legacy builder embeds the flattened form. -/
theorem c10_description_flattened_witness :
    (∀ c ∈ (cleanDescription "\nfirst\nsecond").data, pyIsLineBreak c = false) ∧
    (∃ c ∈ ("\nfirst\nsecond" : String).data, c ≠ '\n') ∧
    cleanDescription "\nfirst\nsecond" = String.mk (joinWithSep spaces4
      (pySplitlines (("\nfirst\nsecond" : String).data.dropWhile (fun c => c == '\n')))) ∧
    dictLookup2 (swagger2GenerateDoc yamlFail [] emptyMeta).1 "info" "description" =
      some (PyVal.str (cleanDescription emptyMeta.description)) := by
  have hmain := c10_description_flattened "\nfirst\nsecond" yamlFail [] emptyMeta
  have hex : ∃ c ∈ ("\nfirst\nsecond" : String).data, c ≠ '\n' := by
    refine ⟨'f', ?_, by decide⟩
    decide
  exact ⟨hmain.1, hex, hmain.2.1 hex, hmain.2.2.1⟩
